import Mathlib

/-!
Shallow embedding of the Content-Addressed Ingest & Evidence pipeline
(ingest-service/server.js and evidence-service/server.js).

JavaScript strings are modelled as Lean `String`, JavaScript numbers that
arise from `parseFloat` as a three-way value (`NaN`, signed infinity, or an
exact rational), and the filesystem / Redis ledger as explicit state that is
threaded through each handler.  External library calls whose exact behaviour
the handlers only use through a narrow interface (the SHA-256 digest of
`crypto.createHash`, `Papa.parse`) are passed in as function parameters: the
code uses the digest only as a deterministic key for the Redis `SETNX`
claim, and uses the parser only through its record-list-or-error result.
-/

namespace Js

/-- Character-list test that `pat` is a prefix of `hs`. -/
def prefixChars : List Char → List Char → Bool
  | [], _ => true
  | _ :: _, [] => false
  | a :: as, b :: bs => a == b && prefixChars as bs

/-- Character-list test that `pat` occurs contiguously inside `hs`. -/
def substrChars (pat : List Char) : List Char → Bool
  | [] => pat.isEmpty
  | c :: rest => prefixChars pat (c :: rest) || substrChars pat rest

/-- JavaScript `haystack.includes(needle)`: contiguous substring test. -/
def jsIncludes (haystack needle : String) : Bool :=
  substrChars needle.data haystack.data

/-- JavaScript `s.startsWith(pre)`: string-prefix test. -/
def startsWith (s pre : String) : Bool :=
  prefixChars pre.data s.data

/-- JavaScript `s.toLowerCase()` on the ASCII range the services handle. -/
def lowerStr (s : String) : String :=
  String.mk (s.data.map Char.toLower)

end Js

namespace Ingest

/-- Characters treated as whitespace by JavaScript `parseFloat` trimming
(space, tab, line feed, carriage return, vertical tab, form feed). -/
def jsWhitespace (c : Char) : Bool :=
  c == ' ' || c == '\t' || c == '\n' || c == '\r' || c == '\x0b' || c == '\x0c'

/-- Value of a decimal digit list, most significant first. -/
def digitsToNat (ds : List Char) : Nat :=
  ds.foldl (fun acc c => acc * 10 + (c.toNat - '0'.toNat)) 0

/-- Result of JavaScript `parseFloat`: NaN, a signed infinity, or a finite
value (modelled exactly as a rational; the doubles produced by the source on
the inputs of interest are exact). -/
inductive JsNum where
  | nan : JsNum
  | inf : Bool → JsNum
  | fin : Rat → JsNum
deriving Repr, DecidableEq

/-- Negation of a JavaScript number (used for a leading minus sign). -/
def negJsNum : JsNum → JsNum
  | JsNum.nan => JsNum.nan
  | JsNum.inf b => JsNum.inf (!b)
  | JsNum.fin q => JsNum.fin (-q)

/-- Application of a decimal exponent to a finite value. -/
def applyExp (q : Rat) (e : Int) : Rat :=
  if 0 ≤ e then q * (10 : Rat) ^ e.toNat else q / (10 : Rat) ^ (-e).toNat

/-- Parse of an optional exponent part `e`/`E` with optional sign; `none`
when no syntactically complete exponent follows (in which case `parseFloat`
stops before the `e`). -/
def parseExponent (cs : List Char) : Option Int :=
  match cs with
  | [] => none
  | c :: rest =>
    if c == 'e' || c == 'E' then
      let signAndRest : Int × List Char :=
        match rest with
        | '+' :: r => (1, r)
        | '-' :: r => (-1, r)
        | r => (1, r)
      let ds := signAndRest.2.takeWhile Char.isDigit
      if ds.isEmpty then none
      else some (signAndRest.1 * (digitsToNat ds : Int))
    else none

/-- Parse of an unsigned `StrDecimalLiteral` prefix: `Infinity`, or digits
with optional fraction and exponent; NaN when no digit is consumed. -/
def parseUnsignedFloat (cs : List Char) : JsNum :=
  if cs.take 8 = "Infinity".data then JsNum.inf false
  else
    let intDs := cs.takeWhile Char.isDigit
    let rest1 := cs.dropWhile Char.isDigit
    match rest1 with
    | '.' :: rest2 =>
      let fracDs := rest2.takeWhile Char.isDigit
      if intDs.isEmpty && fracDs.isEmpty then JsNum.nan
      else
        let rest3 := rest2.dropWhile Char.isDigit
        let base : Rat := (digitsToNat (intDs ++ fracDs) : Rat) / (10 : Rat) ^ fracDs.length
        match parseExponent rest3 with
        | some e => JsNum.fin (applyExp base e)
        | none => JsNum.fin base
    | rest2 =>
      if intDs.isEmpty then JsNum.nan
      else
        let base : Rat := (digitsToNat intDs : Rat)
        match parseExponent rest2 with
        | some e => JsNum.fin (applyExp base e)
        | none => JsNum.fin base

/-- JavaScript `parseFloat`: skip leading whitespace, optional sign, then
the longest decimal-literal prefix; NaN when none exists. -/
def jsParseFloat (s : String) : JsNum :=
  match s.data.dropWhile jsWhitespace with
  | '+' :: rest => parseUnsignedFloat rest
  | '-' :: rest => negJsNum (parseUnsignedFloat rest)
  | rest => parseUnsignedFloat rest

/-- Lift of `parseFloat` to a possibly absent field: `parseFloat(undefined)`
coerces the argument to the string `"undefined"` and yields NaN. -/
def jsParseFloatOpt (o : Option String) : JsNum :=
  match o with
  | none => JsNum.nan
  | some s => jsParseFloat s

/-- Condition `isNaN(x) || x <= 0` from the amount rule of
`validateCSVSchema` (line 121 of ingest-service/server.js). -/
def jsNotPositive : JsNum → Bool
  | JsNum.nan => true
  | JsNum.inf b => b
  | JsNum.fin q => decide (q ≤ 0)

/-- Parsed CSV record as produced by `Papa.parse` with `header: true`: an
association list from field name to string value (`lookup` returning `none`
models a JavaScript `undefined` property). -/
abbrev Record := List (String × String)

/-- The `requiredFields` array of `validateCSVSchema`. -/
def requiredFields : List String :=
  ["transactionId", "amount", "fromAccount", "toAccount", "paymentMethod", "timestamp"]

/-- The `validPaymentMethods` array of `validateCSVSchema`. -/
def validPaymentMethods : List String :=
  ["RTGS", "NEFT", "IMPS", "UPI"]

/-- Test `!row[field] || row[field].toString().trim() === ''`: the value is
absent, empty, or whitespace-only (a string trims to the empty string
exactly when every character is whitespace). -/
def isBlank (o : Option String) : Bool :=
  match o with
  | none => true
  | some v => v.data.all jsWhitespace

/-- Membership test `validPaymentMethods.includes(row.paymentMethod)`; an
absent property is not a member of the string array. -/
def paymentMethodOk (o : Option String) : Bool :=
  match o with
  | none => false
  | some v => validPaymentMethods.contains v

/-- Body of the per-record loop of `validateCSVSchema` for the record at
0-based index `i`: first blank required field in declaration order, then the
amount rule, then the payment-method rule; `none` when the record passes. -/
def checkRow (i : Nat) (row : Record) : Option String :=
  match requiredFields.find? (fun f => isBlank (List.lookup f row)) with
  | some f => some ("Row " ++ toString (i + 1) ++ ": " ++ f ++ " is required")
  | none =>
    if jsNotPositive (jsParseFloatOpt (List.lookup "amount" row)) then
      some ("Row " ++ toString (i + 1) ++ ": amount must be a positive number")
    else if !paymentMethodOk (List.lookup "paymentMethod" row) then
      some ("Row " ++ toString (i + 1) ++ ": paymentMethod must be one of " ++
        String.intercalate ", " validPaymentMethods)
    else none

/-- The `for (let i = 0; ...)` loop of `validateCSVSchema`, returning the
first per-record error in file order starting at index `i`. -/
def checkRows (i : Nat) : List Record → Option String
  | [] => none
  | row :: rest =>
    match checkRow i row with
    | some e => some e
    | none => checkRows (i + 1) rest

/-- Validation report `{ valid, error }` returned by `validateCSVSchema`. -/
structure ValidationReport where
  valid : Bool
  error : Option String
deriving Repr, DecidableEq

/-- The `validateCSVSchema` function of ingest-service/server.js: empty-set
check, then missing header fields (all listed, from the first record's
keys), then the per-record loop. -/
def validateCSVSchema (data : List Record) : ValidationReport :=
  if data.isEmpty then { valid := false, error := some "CSV file is empty" }
  else
    let headers := (data.headD []).map Prod.fst
    let missingFields := requiredFields.filter (fun f => !headers.contains f)
    if !missingFields.isEmpty then
      { valid := false,
        error := some ("Missing required fields: " ++ String.intercalate ", " missingFields) }
    else
      match checkRows 0 data with
      | some e => { valid := false, error := some e }
      | none => { valid := true, error := none }

/-- Index-independent violation test for one record: `checkRow` reports an
error at some index exactly when it does at every index. -/
def rowBad (row : Record) : Bool :=
  (checkRow 0 row).isSome

end Ingest

namespace PathModel

/-- Split of a character list on `/`, keeping empty segments (the behaviour
of `split` with a one-character separator). -/
def splitSegsAux (cur : List Char) : List Char → List String
  | [] => [String.mk cur.reverse]
  | c :: rest =>
    if c = '/' then String.mk cur.reverse :: splitSegsAux [] rest
    else splitSegsAux (c :: cur) rest

/-- Split of a POSIX path string on `/`. -/
def splitPath (s : String) : List String :=
  splitSegsAux [] s.data

/-- Segment normalization of an absolute path, as performed by Node's
`path.normalize` (and by the kernel when a raw path is resolved): empty and
`.` segments are dropped, `..` pops the previous segment, and `..` above the
root is discarded.  The accumulator holds the kept segments in reverse. -/
def normSegsAbs (acc : List String) : List String → List String
  | [] => acc.reverse
  | "" :: rest => normSegsAbs acc rest
  | "." :: rest => normSegsAbs acc rest
  | ".." :: rest => normSegsAbs acc.tail rest
  | seg :: rest => normSegsAbs (seg :: acc) rest

/-- Normalized absolute path built back from its segments. -/
def joinSegs (segs : List String) : String :=
  "/" ++ String.intercalate "/" segs

/-- Resolution of an absolute path string: split, normalize `.`/`..`/empty
segments, rebuild. -/
def resolveAbs (p : String) : String :=
  joinSegs (normSegsAbs [] (splitPath p))

/-- Node `path.join(root, name)` for an absolute `root`: concatenate with a
separator and normalize. -/
def pathJoin (root name : String) : String :=
  resolveAbs (root ++ "/" ++ name)

/-- Containment of a resolved absolute path strictly inside a root
directory: the path is the root itself or lies below `root ++ "/"`. -/
def insideRoot (root p : String) : Bool :=
  p == root || Js.startsWith p (root ++ "/")

end PathModel

namespace Evidence

open PathModel

/-- The `EVIDENCE_DIR` constant of evidence-service/server.js. -/
def EVIDENCE_DIR : String := "/app/data/evidence"

/-- Filesystem model for the read-only evidence handlers: a map from
resolved absolute path to file content.  `fs.existsSync`/`createReadStream`
on a raw path act on its kernel-resolved form, so lookups key on
`resolveAbs`. -/
def Fs := List (String × String)

/-- Result of `GET /:filename`. -/
inductive GetResult where
  | invalidPath : GetResult
  | notFound : GetResult
  | served : String → String → GetResult
deriving Repr, DecidableEq

/-- The `GET /:filename` handler (lines 137-181): join the filename onto
`EVIDENCE_DIR`, reject when the joined path does not start with the
`EVIDENCE_DIR` string, then serve the file at the resolved path if it
exists. -/
def evidenceGet (fs : Fs) (filename : String) : GetResult :=
  let filePath := pathJoin EVIDENCE_DIR filename
  if !(Js.startsWith filePath EVIDENCE_DIR) then GetResult.invalidPath
  else
    match List.lookup filePath fs with
    | none => GetResult.notFound
    | some content => GetResult.served filePath content

/-- Entry built for one directory name by both `GET /files` and
`GET /search/:pattern`: the raw filename together with the metadata computed
by `getFileMetadata` on the joined path, abstracted as a function of the
filename. -/
def fileEntry {α : Type} (md : String → α) (filename : String) : String × α :=
  (filename, md filename)

/-- The `GET /files` handler (lines 112-134): map every directory entry to
its metadata record, in listing order. -/
def listFiles {α : Type} (md : String → α) (names : List String) : List (String × α) :=
  names.map (fileEntry md)

/-- The `GET /search/:pattern` handler (lines 216-245): keep the directory
names whose lowercased form contains the lowercased pattern, then build the
same entries as the listing. -/
def searchFiles {α : Type} (md : String → α) (names : List String) (pattern : String) :
    List (String × α) :=
  (names.filter (fun filename => Js.jsIncludes (Js.lowerStr filename) (Js.lowerStr pattern))).map
    (fileEntry md)

end Evidence

namespace Ingest

open PathModel

/-- Shared mutable state visible to the upload handler: the Redis keys
claimed through `SETNX`, the files written under `/app/data/processed`
(path with its content), and the `batch.created` events successfully
delivered on the `arealis:events` channel. -/
structure IngestState where
  claimed : List String
  stored : List (String × String)
  published : List (String × String)
deriving Repr, DecidableEq

/-- Per-request environment: the UUID drawn for this request, and whether
the infrastructure calls of this request succeed (Redis reachable for
`SETNX`, `copyFileSync` succeeding, the publish succeeding). -/
structure Env where
  newBatchId : String
  ledgerOk : Bool
  storeOk : Bool
  publishOk : Bool
deriving Repr, DecidableEq

/-- Uploaded file part as placed by multer: the temporary path under `/tmp`
and the raw bytes (modelled as a string; the same bytes are hashed and
parsed). -/
structure UploadFile where
  tmpPath : String
  content : String
deriving Repr, DecidableEq

/-- Externally observable side effects of one request, in program order. -/
inductive Effect where
  | storeWrite : String → Effect
  | publishEvent : String → String → Effect
  | tmpDelete : String → Effect
deriving Repr, DecidableEq

/-- Terminal outcome of one `POST /upload` request: the HTTP response
class.  `stored` carries the fresh batchId, final path, record count and
hash of the success body. -/
inductive UploadOutcome where
  | noFile : UploadOutcome
  | internalError : UploadOutcome
  | duplicate : String → UploadOutcome
  | parseError : UploadOutcome
  | invalid : String → UploadOutcome
  | stored : String → String → Nat → String → UploadOutcome
deriving Repr, DecidableEq

/-- The `checkDuplicate` function (lines 148-156): an atomic
`SETNX filehash:<hash>` against the shared ledger; `true` means the key was
absent and is now claimed, `false` means it already existed. -/
def checkDuplicate (st : IngestState) (key : String) : Bool × IngestState :=
  if st.claimed.contains key then (false, st)
  else (true, { st with claimed := key :: st.claimed })

/-- Storage path assigned to a committed batch (line 272). -/
def processedPath (batchId : String) : String :=
  "/app/data/processed/" ++ batchId ++ ".csv"

/-- The `POST /upload` handler (lines 217-310) as a state transformer.
`hashFn` stands for the SHA-256 digest of `calculateFileHash` and
`parseCSV` for `Papa.parse` with `header: true` (`none` when
`parseResult.errors` is non-empty).  Control flow follows the source: no
file → 400; hash; `checkDuplicate` (Redis unreachable → the outer catch
returns 500); duplicate → 400 with the hash; parse errors → 400; schema
validation failure → 400 with the report; otherwise draw a batchId, copy
the file to its processed path, attempt the publish (failure swallowed by
`publishBatchCreated`'s own catch), and respond with the success body.  The
`finally` block deletes the temporary file on every path on which it was
set. -/
def upload (hashFn : String → String) (parseCSV : String → Option (List Record))
    (env : Env) (st : IngestState) (req : Option UploadFile) :
    UploadOutcome × IngestState × List Effect :=
  match req with
  | none => (UploadOutcome.noFile, st, [])
  | some f =>
    let fileHash := hashFn f.content
    if !env.ledgerOk then
      (UploadOutcome.internalError, st, [Effect.tmpDelete f.tmpPath])
    else
      let claimRes := checkDuplicate st ("filehash:" ++ fileHash)
      if !claimRes.1 then
        (UploadOutcome.duplicate fileHash, claimRes.2, [Effect.tmpDelete f.tmpPath])
      else
        match parseCSV f.content with
        | none => (UploadOutcome.parseError, claimRes.2, [Effect.tmpDelete f.tmpPath])
        | some data =>
          let validation := validateCSVSchema data
          if !validation.valid then
            (UploadOutcome.invalid (validation.error.getD ""), claimRes.2,
              [Effect.tmpDelete f.tmpPath])
          else
            let batchId := env.newBatchId
            let finalFilePath := processedPath batchId
            if !env.storeOk then
              (UploadOutcome.internalError, claimRes.2, [Effect.tmpDelete f.tmpPath])
            else
              let st2 := { claimRes.2 with stored := (finalFilePath, f.content) :: claimRes.2.stored }
              let st3 :=
                if env.publishOk then
                  { st2 with published := (batchId, finalFilePath) :: st2.published }
                else st2
              (UploadOutcome.stored batchId finalFilePath data.length fileHash, st3,
                Effect.storeWrite finalFilePath ::
                  (if env.publishOk then [Effect.publishEvent batchId finalFilePath] else []) ++
                    [Effect.tmpDelete f.tmpPath])

/-- Sequential execution of a list of upload requests against the shared
state.  The only operation on shared state whose placement matters under
concurrency is the atomic `SETNX` claim, so every concurrent schedule of a
set of requests is observationally a serialization in claim order, which
this function ranges over. -/
def runUploads (hashFn : String → String) (parseCSV : String → Option (List Record)) :
    List (Env × Option UploadFile) → IngestState → List UploadOutcome × IngestState
  | [], st => ([], st)
  | (env, req) :: rest, st =>
    let r := upload hashFn parseCSV env st req
    let rr := runUploads hashFn parseCSV rest r.2.1
    (r.1 :: rr.1, rr.2)

/-- Test for the terminal success outcome. -/
def isStoredOutcome : UploadOutcome → Bool
  | UploadOutcome.stored _ _ _ _ => true
  | _ => false

/-- Scan of an effect trace checking that every published event's storage
path was written earlier in the trace (`written` accumulates the paths seen
so far). -/
def storePrecedesPublish (written : List String) : List Effect → Bool
  | [] => true
  | Effect.storeWrite p :: rest => storePrecedesPublish (p :: written) rest
  | Effect.publishEvent _ p :: rest =>
      written.contains p && storePrecedesPublish written rest
  | Effect.tmpDelete _ :: rest => storePrecedesPublish written rest

/-- Filesystem model for `GET /batch/:batchId/status`: resolved absolute
path to file size, standing for `existsSync` and `statSync`. -/
def StatFs := List (String × Nat)

/-- Result of `GET /batch/:batchId/status`. -/
inductive StatusResult where
  | notFound : StatusResult
  | ok : String → Nat → StatusResult
deriving Repr, DecidableEq

/-- Raw path interpolated by the status handler (line 316): the
caller-supplied `batchId` is spliced into the template with no check. -/
def batchStatusPath (batchId : String) : String :=
  "/app/data/processed/" ++ batchId ++ ".csv"

/-- The `GET /batch/:batchId/status` handler (lines 313-336): stat the
interpolated path (the kernel resolves `..` segments) and report the file's
existence and metadata. -/
def batchStatus (fs : StatFs) (batchId : String) : StatusResult :=
  let filePath := batchStatusPath batchId
  match List.lookup (resolveAbs filePath) fs with
  | none => StatusResult.notFound
  | some size => StatusResult.ok filePath size

/-- Missing header fields computed by `validateCSVSchema` from the first
record's keys. -/
def missingHeaderFields (data : List Record) : List String :=
  requiredFields.filter (fun f => !(((data.headD []).map Prod.fst).contains f))

theorem checkRow_isSome (i : Nat) (row : Record) :
    (checkRow i row).isSome = rowBad row := by
  unfold rowBad checkRow
  cases h : requiredFields.find? (fun f => isBlank (List.lookup f row)) with
  | some f => simp
  | none =>
    by_cases h1 : jsNotPositive (jsParseFloatOpt (List.lookup "amount" row)) <;>
      by_cases h2 : paymentMethodOk (List.lookup "paymentMethod" row) <;>
        simp [h1, h2]

theorem checkRow_eq_none_of_not_bad (i : Nat) (row : Record) (h : rowBad row = false) :
    checkRow i row = none := by
  have hs := checkRow_isSome i row
  rw [h] at hs
  exact Option.not_isSome_iff_eq_none.mp (by simp [hs])

theorem checkRows_first (data : List Record) :
    ∀ (i k : Nat) (row : Record), data.get? k = some row → rowBad row = true →
      (∀ j rj, j < k → data.get? j = some rj → rowBad rj = false) →
      checkRows i data = checkRow (i + k) row := by
  induction data with
  | nil => intro i k row h _ _; simp at h
  | cons r rest ih =>
    intro i k row hget hbad hprev
    cases k with
    | zero =>
      have heq : r = row := by simpa using hget
      have hsome : (checkRow i r).isSome = true := by
        rw [checkRow_isSome, heq]; exact hbad
      obtain ⟨e, he⟩ := Option.isSome_iff_exists.mp hsome
      unfold checkRows
      rw [he]
      simp [← heq, he]
    | succ n =>
      have h0 : rowBad r = false := hprev 0 r (Nat.succ_pos n) rfl
      have hr : checkRow i r = none := checkRow_eq_none_of_not_bad i r h0
      unfold checkRows
      rw [hr]
      have hrec := ih (i + 1) n row (by simpa using hget) hbad
        (fun j rj hj hgj => hprev (j + 1) rj (Nat.succ_lt_succ hj) (by simpa using hgj))
      rw [hrec]
      have : i + (n + 1) = (i + 1) + n := by omega
      rw [this]

theorem checkRows_none (data : List Record) :
    ∀ (i : Nat), checkRows i data = none → ∀ row ∈ data, rowBad row = false := by
  induction data with
  | nil => intro i _ row h; simp at h
  | cons r rest ih =>
    intro i h row hmem
    unfold checkRows at h
    cases hr : checkRow i r with
    | some e => rw [hr] at h; simp at h
    | none =>
      rw [hr] at h
      rcases List.mem_cons.mp hmem with heq | htail
      · subst heq
        have := checkRow_isSome i row
        rw [hr] at this
        simp at this
        exact this
      · exact ih (i + 1) h row htail

theorem validate_reduces (data : List Record) (hne : data ≠ [])
    (hhead : missingHeaderFields data = []) :
    validateCSVSchema data =
      (match checkRows 0 data with
        | some e => { valid := false, error := some e }
        | none => { valid := true, error := none }) := by
  unfold validateCSVSchema
  have h1 : ¬(data.isEmpty = true) := by
    cases data with
    | nil => exact absurd rfl hne
    | cons a l => simp
  unfold missingHeaderFields at hhead
  rw [if_neg h1]
  dsimp only
  rw [hhead]
  simp

theorem validate_first_violation (data : List Record) (i : Nat) (row : Record)
    (hget : data.get? i = some row) (hbad : rowBad row = true)
    (hprev : ∀ j rj, j < i → data.get? j = some rj → rowBad rj = false)
    (hhead : missingHeaderFields data = []) :
    validateCSVSchema data = { valid := false, error := checkRow i row } := by
  have hne : data ≠ [] := by
    intro h; subst h; simp at hget
  rw [validate_reduces data hne hhead]
  have hrows : checkRows 0 data = checkRow i row := by
    have := checkRows_first data 0 i row hget hbad hprev
    simpa using this
  rw [hrows]
  have hsome : (checkRow i row).isSome = true := by rw [checkRow_isSome]; exact hbad
  obtain ⟨e, he⟩ := Option.isSome_iff_exists.mp hsome
  rw [he]

theorem valid_checkRows (data : List Record)
    (h : (validateCSVSchema data).valid = true) : checkRows 0 data = none := by
  unfold validateCSVSchema at h
  by_cases h1 : data.isEmpty <;> simp only [h1] at h
  · simp at h
  · by_cases h2 : (requiredFields.filter
        (fun f => !(((data.headD []).map Prod.fst).contains f))).isEmpty <;>
      simp only [h2] at h
    · cases hr : checkRows 0 data with
      | some e => rw [hr] at h; simp at h
      | none => rfl
    · simp at h

theorem checkRow_amount_ok (i : Nat) (row : Record) (h : checkRow i row = none) :
    jsNotPositive (jsParseFloatOpt (List.lookup "amount" row)) = false := by
  unfold checkRow at h
  cases hf : requiredFields.find? (fun f => isBlank (List.lookup f row)) with
  | some f => rw [hf] at h; simp at h
  | none =>
    rw [hf] at h
    by_cases h1 : jsNotPositive (jsParseFloatOpt (List.lookup "amount" row))
    · rw [if_pos h1] at h; simp at h
    · simpa using h1

theorem rowBad_of_bad_amount (row : Record)
    (h : jsNotPositive (jsParseFloatOpt (List.lookup "amount" row)) = true) :
    rowBad row = true := by
  unfold rowBad checkRow
  cases hf : requiredFields.find? (fun f => isBlank (List.lookup f row)) with
  | some f => simp
  | none => simp [h]

theorem upload_success (hashFn : String → String) (parseCSV : String → Option (List Record))
    (env : Env) (st : IngestState) (f : UploadFile) (data : List Record)
    (hledger : env.ledgerOk = true) (hstore : env.storeOk = true)
    (hclaim : ("filehash:" ++ hashFn f.content) ∉ st.claimed)
    (hparse : parseCSV f.content = some data)
    (hvalid : (validateCSVSchema data).valid = true) :
    upload hashFn parseCSV env st (some f) =
      (UploadOutcome.stored env.newBatchId (processedPath env.newBatchId) data.length
          (hashFn f.content),
        { claimed := ("filehash:" ++ hashFn f.content) :: st.claimed,
          stored := (processedPath env.newBatchId, f.content) :: st.stored,
          published :=
            if env.publishOk then
              (env.newBatchId, processedPath env.newBatchId) :: st.published
            else st.published },
        Effect.storeWrite (processedPath env.newBatchId) ::
          (if env.publishOk then
              [Effect.publishEvent env.newBatchId (processedPath env.newBatchId)]
            else []) ++ [Effect.tmpDelete f.tmpPath]) := by
  by_cases hp : env.publishOk <;>
    simp [upload, checkDuplicate, hledger, hclaim, hparse, hvalid, hstore, hp]

theorem upload_duplicate (hashFn : String → String) (parseCSV : String → Option (List Record))
    (env : Env) (st : IngestState) (f : UploadFile)
    (hledger : env.ledgerOk = true)
    (hclaim : ("filehash:" ++ hashFn f.content) ∈ st.claimed) :
    upload hashFn parseCSV env st (some f) =
      (UploadOutcome.duplicate (hashFn f.content), st, [Effect.tmpDelete f.tmpPath]) := by
  simp [upload, checkDuplicate, hledger, hclaim]

theorem upload_claimed_cases (hashFn : String → String)
    (parseCSV : String → Option (List Record)) (env : Env) (st : IngestState)
    (req : Option UploadFile) :
    (upload hashFn parseCSV env st req).2.1.claimed = st.claimed ∨
    ∃ k, (upload hashFn parseCSV env st req).2.1.claimed = k :: st.claimed := by
  cases req with
  | none => exact Or.inl rfl
  | some f =>
    by_cases hL : env.ledgerOk
    · by_cases hC : ("filehash:" ++ hashFn f.content) ∈ st.claimed
      · left; simp [upload, checkDuplicate, hL, hC]
      · right
        refine ⟨"filehash:" ++ hashFn f.content, ?_⟩
        cases hP : parseCSV f.content with
        | none => simp [upload, checkDuplicate, hL, hC, hP]
        | some data =>
          by_cases hV : (validateCSVSchema data).valid
          · by_cases hS : env.storeOk
            · by_cases hPub : env.publishOk <;>
                simp [upload, checkDuplicate, hL, hC, hP, hV, hS, hPub]
            · simp [upload, checkDuplicate, hL, hC, hP, hV, hS]
          · simp [upload, checkDuplicate, hL, hC, hP, hV]
    · left; simp [upload, show env.ledgerOk = false by simpa using hL]

theorem upload_claimed_mono (hashFn : String → String)
    (parseCSV : String → Option (List Record)) (env : Env) (st : IngestState)
    (req : Option UploadFile) (k : String) (h : k ∈ st.claimed) :
    k ∈ (upload hashFn parseCSV env st req).2.1.claimed := by
  rcases upload_claimed_cases hashFn parseCSV env st req with hcase | ⟨key, hcase⟩
  · rw [hcase]; exact h
  · rw [hcase]; exact List.mem_cons_of_mem key h

theorem upload_invalid_keeps_claim (hashFn : String → String)
    (parseCSV : String → Option (List Record)) (env : Env) (st : IngestState)
    (f : UploadFile) (e : String)
    (h : (upload hashFn parseCSV env st (some f)).1 = UploadOutcome.invalid e) :
    ("filehash:" ++ hashFn f.content) ∈ (upload hashFn parseCSV env st (some f)).2.1.claimed := by
  by_cases hL : env.ledgerOk
  · by_cases hC : ("filehash:" ++ hashFn f.content) ∈ st.claimed
    · exfalso
      simp [upload, checkDuplicate, hL, hC] at h
    · cases hP : parseCSV f.content with
      | none => exfalso; simp [upload, checkDuplicate, hL, hC, hP] at h
      | some data =>
        by_cases hV : (validateCSVSchema data).valid
        · exfalso
          by_cases hS : env.storeOk
          · by_cases hPub : env.publishOk <;>
              simp [upload, checkDuplicate, hL, hC, hP, hV, hS, hPub] at h
          · simp [upload, checkDuplicate, hL, hC, hP, hV, hS] at h
        · simp [upload, checkDuplicate, hL, hC, hP, hV]
  · exfalso
    simp [upload, show env.ledgerOk = false by simpa using hL] at h

/-- Claim C3: in every run of the upload handler — every choice of hash
function, parser, per-request environment (including infrastructure
failures), prior state and request — the effect trace satisfies the
store-before-publish discipline: a `batch.created` notification for a
storage path is observable only after the durable write of that path
appears earlier in the trace, so no execution publishes a notification
whose referenced artifact is absent from storage. -/
theorem upload_effects_ordered (hashFn : String → String)
    (parseCSV : String → Option (List Record)) (env : Env) (st : IngestState)
    (req : Option UploadFile) :
    storePrecedesPublish [] (upload hashFn parseCSV env st req).2.2 = true := by
  cases req with
  | none => rfl
  | some f =>
    by_cases hL : env.ledgerOk
    · by_cases hC : ("filehash:" ++ hashFn f.content) ∈ st.claimed
      · simp [upload, checkDuplicate, hL, hC, storePrecedesPublish]
      · cases hP : parseCSV f.content with
        | none => simp [upload, checkDuplicate, hL, hC, hP, storePrecedesPublish]
        | some data =>
          by_cases hV : (validateCSVSchema data).valid
          · by_cases hS : env.storeOk
            · by_cases hPub : env.publishOk <;>
                simp [upload, checkDuplicate, hL, hC, hP, hV, hS, hPub, storePrecedesPublish]
            · simp [upload, checkDuplicate, hL, hC, hP, hV, hS, storePrecedesPublish]
          · simp [upload, checkDuplicate, hL, hC, hP, hV, storePrecedesPublish]
    · simp [upload, show env.ledgerOk = false by simpa using hL, storePrecedesPublish]

/-- Claim C10: whenever a file was received, the temporary upload file is
deleted as the final action of the request on every terminal outcome —
success, duplicate, validation failure, parse failure, and internal error
(the universally quantified environment covers them all): the last effect
of the trace is always the `finally`-block deletion of the multer temp
path. -/
theorem upload_deletes_tmp (hashFn : String → String)
    (parseCSV : String → Option (List Record)) (env : Env) (st : IngestState)
    (f : UploadFile) :
    ((upload hashFn parseCSV env st (some f)).2.2).getLast? =
      some (Effect.tmpDelete f.tmpPath) := by
  by_cases hL : env.ledgerOk
  · by_cases hC : ("filehash:" ++ hashFn f.content) ∈ st.claimed
    · simp [upload, checkDuplicate, hL, hC]
    · cases hP : parseCSV f.content with
      | none => simp [upload, checkDuplicate, hL, hC, hP]
      | some data =>
        by_cases hV : (validateCSVSchema data).valid
        · by_cases hS : env.storeOk
          · by_cases hPub : env.publishOk <;>
              simp [upload, checkDuplicate, hL, hC, hP, hV, hS, hPub, List.getLast?_append]
          · simp [upload, checkDuplicate, hL, hC, hP, hV, hS]
        · simp [upload, checkDuplicate, hL, hC, hP, hV]
  · simp [upload, show env.ledgerOk = false by simpa using hL]

theorem runUploads_all_duplicate (hashFn : String → String)
    (parseCSV : String → Option (List Record)) (B : String) :
    ∀ (atts : List (Env × Option UploadFile)) (st : IngestState),
      ("filehash:" ++ hashFn B) ∈ st.claimed →
      (∀ p ∈ atts, p.1.ledgerOk = true ∧ ∃ f, p.2 = some f ∧ f.content = B) →
      (runUploads hashFn parseCSV atts st).1 =
        atts.map (fun _ => UploadOutcome.duplicate (hashFn B)) ∧
      (runUploads hashFn parseCSV atts st).2 = st := by
  intro atts
  induction atts with
  | nil => intro st _ _; exact ⟨rfl, rfl⟩
  | cons a rest ih =>
    intro st hmem hall
    obtain ⟨env, req⟩ := a
    obtain ⟨hL, f, hreq, hcont⟩ := hall (env, req) (List.mem_cons_self _ rest)
    subst hreq
    have hdup := upload_duplicate hashFn parseCSV env st f hL (by rw [hcont]; exact hmem)
    have hrest := ih st hmem (fun p hp => hall p (List.mem_cons_of_mem _ hp))
    unfold runUploads
    rw [hdup]
    exact ⟨by simp [hrest.1, hcont], hrest.2⟩

end Ingest

namespace Evidence

theorem substrChars_nil (l : List Char) : Js.substrChars [] l = true := by
  cases l with
  | nil => rfl
  | cons c rest => rfl

theorem jsIncludes_empty_pattern (s : String) : Js.jsIncludes s "" = true := by
  unfold Js.jsIncludes
  exact substrChars_nil s.data

theorem list_filter_self {α : Type} (l : List α) (p : α → Bool)
    (h : ∀ a ∈ l, p a = true) : l.filter p = l := by
  induction l with
  | nil => rfl
  | cons a rest ih =>
    have ha := h a (List.mem_cons_self a rest)
    simp [List.filter_cons, ha, ih (fun b hb => h b (List.mem_cons_of_mem a hb))]

theorem evidenceGet_guard (fs : Fs) (fn p c : String)
    (h : evidenceGet fs fn = GetResult.served p c) :
    Js.startsWith p EVIDENCE_DIR = true := by
  unfold evidenceGet at h
  by_cases hp : Js.startsWith (PathModel.pathJoin EVIDENCE_DIR fn) EVIDENCE_DIR
  · rw [if_neg (by simp [hp])] at h
    cases hl : List.lookup (PathModel.pathJoin EVIDENCE_DIR fn) fs with
    | none => rw [hl] at h; exact absurd h (by simp)
    | some content =>
      rw [hl] at h
      have : PathModel.pathJoin EVIDENCE_DIR fn = p := by
        injection h
      rw [← this]
      exact hp
  · rw [if_pos (by simp [hp])] at h
    exact absurd h (by simp)

end Evidence

namespace Scenario

open Ingest

/-- CSV text of a well-formed single-record batch. -/
def csvGoodText : String :=
  "transactionId,amount,fromAccount,toAccount,paymentMethod,timestamp\nT1,5,A1,A2,UPI,2024-01-01T00:00:00Z"

/-- CSV text identical in shape but with a negative amount. -/
def csvBadAmountText : String :=
  "transactionId,amount,fromAccount,toAccount,paymentMethod,timestamp\nT2,-5,A1,A2,UPI,2024-01-01T00:00:00Z"

/-- Record produced by `Papa.parse` (header mode, trimmed headers) for the
data row of `csvGoodText`. -/
def goodRecord : Record :=
  [("transactionId", "T1"), ("amount", "5"), ("fromAccount", "A1"),
   ("toAccount", "A2"), ("paymentMethod", "UPI"), ("timestamp", "2024-01-01T00:00:00Z")]

/-- Record produced by `Papa.parse` for the data row of `csvBadAmountText`. -/
def badAmountRecord : Record :=
  [("transactionId", "T2"), ("amount", "-5"), ("fromAccount", "A1"),
   ("toAccount", "A2"), ("paymentMethod", "UPI"), ("timestamp", "2024-01-01T00:00:00Z")]

/-- Record with a payment method outside the enumerated rail set. -/
def badPaymentRecord : Record :=
  [("transactionId", "T3"), ("amount", "5"), ("fromAccount", "A1"),
   ("toAccount", "A2"), ("paymentMethod", "WIRE"), ("timestamp", "2024-01-01T00:00:00Z")]

/-- Behaviour of `Papa.parse` with `header: true` on the two concrete CSV
texts above; any other input is treated as a parse failure, which keeps the
scenario conservative. -/
def sampleParse : String → Option (List Record) := fun s =>
  if s = csvGoodText then some [goodRecord]
  else if s = csvBadAmountText then some [badAmountRecord]
  else none

/-- Deterministic stand-in for the SHA-256 digest of `calculateFileHash`:
the handlers use the digest only as a key whose equality tracks content
equality, which the identity function exhibits. -/
def sampleHash : String → String := fun s => s

/-- Environment of a first upload attempt with healthy infrastructure. -/
def envA : Env :=
  { newBatchId := "batch-a", ledgerOk := true, storeOk := true, publishOk := true }

/-- Environment of a second upload attempt with healthy infrastructure. -/
def envB : Env :=
  { newBatchId := "batch-b", ledgerOk := true, storeOk := true, publishOk := true }

/-- Environment in which the notification publish fails. -/
def envNoPub : Env :=
  { newBatchId := "batch-c", ledgerOk := true, storeOk := true, publishOk := false }

/-- Initial shared state: empty ledger, empty storage, nothing published. -/
def st0 : IngestState := { claimed := [], stored := [], published := [] }

/-- First upload of the well-formed content. -/
def fileGoodA : UploadFile := { tmpPath := "/tmp/file-1.csv", content := csvGoodText }

/-- Second upload of the same well-formed bytes from another temp path. -/
def fileGoodB : UploadFile := { tmpPath := "/tmp/file-2.csv", content := csvGoodText }

/-- First upload of the bad-amount content. -/
def fileBadA : UploadFile := { tmpPath := "/tmp/file-3.csv", content := csvBadAmountText }

/-- Second upload of the same bad-amount bytes. -/
def fileBadB : UploadFile := { tmpPath := "/tmp/file-4.csv", content := csvBadAmountText }

end Scenario

namespace Evidence

/-- Claim C2, counterexample: the traversal guard of `GET /:filename` is a
string-prefix check on the joined path, so the filename
`../evidence2/secret.txt` resolves to `/app/data/evidence2/secret.txt` — a
sibling directory sharing the storage root as a string prefix — passes the
guard, and its bytes are served even though the resolved path is outside
the storage root. -/
theorem get_escapes_to_sibling_root :
    evidenceGet [("/app/data/evidence2/secret.txt", "TOPSECRET")] "../evidence2/secret.txt" =
      GetResult.served "/app/data/evidence2/secret.txt" "TOPSECRET" ∧
    PathModel.insideRoot EVIDENCE_DIR "/app/data/evidence2/secret.txt" = false := by
  exact ⟨by decide, by decide⟩

/-- Claim C2 (amended): resolution of `GET /:filename` is confined to paths
that carry the storage-root string as a prefix — every served file's
resolved path starts with the `EVIDENCE_DIR` string, and any filename whose
joined, normalized path does not is rejected as an invalid-path error.
This string-prefix containment is weaker than true root containment: it
does not exclude sibling directories whose names extend the root string. -/
theorem get_string_guard_confinement (fs : Fs) (fn p c : String) :
    (evidenceGet fs fn = GetResult.served p c → Js.startsWith p EVIDENCE_DIR = true) ∧
    (Js.startsWith (PathModel.pathJoin EVIDENCE_DIR fn) EVIDENCE_DIR = false →
      evidenceGet fs fn = GetResult.invalidPath) := by
  constructor
  · exact evidenceGet_guard fs fn p c
  · intro h
    unfold evidenceGet
    rw [if_pos (by simp [h])]

/-- Witness for the amended C2 theorem at concrete inputs: a file inside
the root is served with the root-prefixed path, and a `../` traversal whose
resolution drops the prefix is rejected. -/
theorem get_string_guard_confinement_witness :
    Js.startsWith "/app/data/evidence/report.csv" EVIDENCE_DIR = true ∧
    evidenceGet [("/app/data/secret.csv", "bytes")] "../secret" = GetResult.invalidPath :=
  ⟨(get_string_guard_confinement [("/app/data/evidence/report.csv", "data")] "report.csv"
      "/app/data/evidence/report.csv" "data").1 (by decide),
   (get_string_guard_confinement [("/app/data/secret.csv", "bytes")] "../secret" "" "").2
      (by decide)⟩

/-- Claim C7: for every metadata function, directory listing and pattern,
`GET /search/:pattern` returns exactly the entries of `GET /files` whose
filename contains the pattern case-insensitively as a substring, and the
empty pattern returns the whole listing. -/
theorem search_filters_listing {α : Type} (md : String → α) (names : List String)
    (pattern : String) :
    searchFiles md names pattern =
      (listFiles md names).filter
        (fun e => Js.jsIncludes (Js.lowerStr e.1) (Js.lowerStr pattern)) ∧
    searchFiles md names "" = listFiles md names := by
  constructor
  · unfold searchFiles listFiles
    induction names with
    | nil => rfl
    | cons n rest ih =>
      by_cases h : Js.jsIncludes (Js.lowerStr n) (Js.lowerStr pattern) = true
      · simp [List.filter_cons, fileEntry, h] at ih ⊢
        exact ih
      · simp [List.filter_cons, fileEntry, h] at ih ⊢
        exact ih
  · unfold searchFiles listFiles
    have hall : names.filter
        (fun filename => Js.jsIncludes (Js.lowerStr filename) (Js.lowerStr "")) = names := by
      apply list_filter_self
      intro a _
      have hl : Js.lowerStr "" = "" := by decide
      rw [hl]
      exact jsIncludes_empty_pattern _
    rw [hall]

end Evidence

namespace Ingest

theorem countP_map_dup {β : Type} (h : String) (l : List β) :
    (l.map (fun _ => UploadOutcome.duplicate h)).countP isStoredOutcome = 0 := by
  induction l with
  | nil => rfl
  | cons a rest ih => simp [List.countP_cons, isStoredOutcome, ih]

/-- Claim C1, counterexample to the claim as stated: admitting the same
bad-amount byte sequence twice yields zero STORED/NOTIFIED outcomes, not
exactly one — the claim winner terminates INVALID at validation and the
second attempt terminates DUPLICATE — so the universally quantified
"exactly one STORED/NOTIFIED outcome for every byte sequence B" fails for
content that loses validation. -/
theorem upload_twice_without_stored_outcome :
    (runUploads Scenario.sampleHash Scenario.sampleParse
        [(Scenario.envA, some Scenario.fileBadA), (Scenario.envB, some Scenario.fileBadB)]
        Scenario.st0).1 =
      [UploadOutcome.invalid "Row 1: amount must be a positive number",
        UploadOutcome.duplicate Scenario.csvBadAmountText] ∧
    ¬((runUploads Scenario.sampleHash Scenario.sampleParse
        [(Scenario.envA, some Scenario.fileBadA), (Scenario.envB, some Scenario.fileBadB)]
        Scenario.st0).1.countP isStoredOutcome = 1) := by
  exact ⟨by decide, by decide⟩

/-- Claim C1 (amended): for every byte sequence whose content parses and
passes schema validation, admitting it any number of times with an
unclaimed hash yields exactly one STORED/NOTIFIED outcome — the attempt
that wins the atomic `SETNX` claim, which responds with a fresh batchId —
while every other attempt with the same bytes terminates DUPLICATE; in
every serialization of concurrent attempts the winner is the first claim
in claim order. -/
theorem dedup_single_winner (hashFn : String → String)
    (parseCSV : String → Option (List Record)) (env : Env) (f : UploadFile)
    (rest : List (Env × Option UploadFile)) (st : IngestState) (data : List Record)
    (hclaim : ("filehash:" ++ hashFn f.content) ∉ st.claimed)
    (hledger : env.ledgerOk = true) (hstore : env.storeOk = true)
    (hparse : parseCSV f.content = some data)
    (hvalid : (validateCSVSchema data).valid = true)
    (hrest : ∀ p ∈ rest, p.1.ledgerOk = true ∧ ∃ g, p.2 = some g ∧ g.content = f.content) :
    (runUploads hashFn parseCSV ((env, some f) :: rest) st).1 =
      UploadOutcome.stored env.newBatchId (processedPath env.newBatchId) data.length
          (hashFn f.content) ::
        rest.map (fun _ => UploadOutcome.duplicate (hashFn f.content)) ∧
    (runUploads hashFn parseCSV ((env, some f) :: rest) st).1.countP isStoredOutcome = 1 := by
  have hs := upload_success hashFn parseCSV env st f data hledger hstore hclaim hparse hvalid
  have hmem : ("filehash:" ++ hashFn f.content) ∈
      (upload hashFn parseCSV env st (some f)).2.1.claimed := by
    rw [hs]; exact List.mem_cons_self _ _
  have hdups := runUploads_all_duplicate hashFn parseCSV f.content rest
    (upload hashFn parseCSV env st (some f)).2.1 hmem hrest
  have hrun : (runUploads hashFn parseCSV ((env, some f) :: rest) st).1 =
      (upload hashFn parseCSV env st (some f)).1 ::
        (runUploads hashFn parseCSV rest (upload hashFn parseCSV env st (some f)).2.1).1 :=
    rfl
  refine ⟨?_, ?_⟩
  · rw [hrun, hdups.1, hs]
  · rw [hrun, hdups.1, hs]
    simp [List.countP_cons, isStoredOutcome, countP_map_dup]

/-- Witness for the amended C1 theorem: two concrete uploads of the same
well-formed bytes; the first is STORED with batchId `batch-a`, the second
is DUPLICATE, and the stored count is exactly one. -/
theorem dedup_single_winner_witness :
    (runUploads Scenario.sampleHash Scenario.sampleParse
        [(Scenario.envA, some Scenario.fileGoodA), (Scenario.envB, some Scenario.fileGoodB)]
        Scenario.st0).1 =
      UploadOutcome.stored "batch-a" (processedPath "batch-a") 1 Scenario.csvGoodText ::
        [((Scenario.envB : Env), some Scenario.fileGoodB)].map
          (fun _ => UploadOutcome.duplicate Scenario.csvGoodText) ∧
    (runUploads Scenario.sampleHash Scenario.sampleParse
        [(Scenario.envA, some Scenario.fileGoodA), (Scenario.envB, some Scenario.fileGoodB)]
        Scenario.st0).1.countP isStoredOutcome = 1 :=
  dedup_single_winner Scenario.sampleHash Scenario.sampleParse Scenario.envA Scenario.fileGoodA
    [(Scenario.envB, some Scenario.fileGoodB)] Scenario.st0 [Scenario.goodRecord]
    (by decide) rfl rfl (by decide) (by decide)
    (by
      intro p hp
      simp at hp
      subst hp
      exact ⟨rfl, Scenario.fileGoodB, rfl, rfl⟩)

/-- Claim C4: the dedup ledger is append-only — every upload preserves
existing claims; an upload that terminates INVALID (won the claim, failed
validation) leaves its content hash claimed in the resulting state; and
any upload of bytes whose hash is already claimed terminates DUPLICATE
with no state change, so content burned by a failed validation can never
be re-admitted. -/
theorem ledger_append_only (hashFn : String → String)
    (parseCSV : String → Option (List Record)) :
    (∀ env st req k, k ∈ st.claimed →
      k ∈ (upload hashFn parseCSV env st req).2.1.claimed) ∧
    (∀ env st f e, (upload hashFn parseCSV env st (some f)).1 = UploadOutcome.invalid e →
      ("filehash:" ++ hashFn f.content) ∈
        (upload hashFn parseCSV env st (some f)).2.1.claimed) ∧
    (∀ env st f, env.ledgerOk = true → ("filehash:" ++ hashFn f.content) ∈ st.claimed →
      upload hashFn parseCSV env st (some f) =
        (UploadOutcome.duplicate (hashFn f.content), st, [Effect.tmpDelete f.tmpPath])) :=
  ⟨fun env st req k h => upload_claimed_mono hashFn parseCSV env st req k h,
   fun env st f e h => upload_invalid_keeps_claim hashFn parseCSV env st f e h,
   fun env st f hL hm => upload_duplicate hashFn parseCSV env st f hL hm⟩

/-- Witness for C4 at concrete inputs: the bad-amount upload terminates
INVALID yet burns its hash, and a second upload of the identical bytes
terminates DUPLICATE. -/
theorem ledger_append_only_witness :
    ("filehash:" ++ Scenario.csvBadAmountText) ∈
      (upload Scenario.sampleHash Scenario.sampleParse Scenario.envA Scenario.st0
        (some Scenario.fileBadA)).2.1.claimed ∧
    upload Scenario.sampleHash Scenario.sampleParse Scenario.envB
        (upload Scenario.sampleHash Scenario.sampleParse Scenario.envA Scenario.st0
          (some Scenario.fileBadA)).2.1 (some Scenario.fileBadB) =
      (UploadOutcome.duplicate Scenario.csvBadAmountText,
        (upload Scenario.sampleHash Scenario.sampleParse Scenario.envA Scenario.st0
          (some Scenario.fileBadA)).2.1,
        [Effect.tmpDelete "/tmp/file-4.csv"]) := by
  have h1 := (ledger_append_only Scenario.sampleHash Scenario.sampleParse).2.1
    Scenario.envA Scenario.st0 Scenario.fileBadA
    "Row 1: amount must be a positive number" (by decide)
  exact ⟨h1, (ledger_append_only Scenario.sampleHash Scenario.sampleParse).2.2
    Scenario.envB _ Scenario.fileBadB rfl h1⟩

/-- Claim C6: when the notification publish fails after the durable write,
the committed batch is not reverted — the upload still responds with the
success body carrying the assigned batchId, the artifact is present in
storage in the final state, and only the published-events log is left
unchanged. -/
theorem publish_failure_keeps_batch (hashFn : String → String)
    (parseCSV : String → Option (List Record)) (env : Env) (st : IngestState)
    (f : UploadFile) (data : List Record)
    (hpub : env.publishOk = false)
    (hledger : env.ledgerOk = true) (hstore : env.storeOk = true)
    (hclaim : ("filehash:" ++ hashFn f.content) ∉ st.claimed)
    (hparse : parseCSV f.content = some data)
    (hvalid : (validateCSVSchema data).valid = true) :
    (upload hashFn parseCSV env st (some f)).1 =
      UploadOutcome.stored env.newBatchId (processedPath env.newBatchId) data.length
        (hashFn f.content) ∧
    (processedPath env.newBatchId, f.content) ∈
      (upload hashFn parseCSV env st (some f)).2.1.stored ∧
    (upload hashFn parseCSV env st (some f)).2.1.published = st.published := by
  have hs := upload_success hashFn parseCSV env st f data hledger hstore hclaim hparse hvalid
  rw [hs]
  refine ⟨rfl, List.mem_cons_self _ _, ?_⟩
  simp [hpub]

/-- Witness for C6 at concrete inputs: with a failing publish channel the
well-formed upload still reports success with batchId `batch-c` and the
artifact is in storage, with nothing published. -/
theorem publish_failure_keeps_batch_witness :
    (upload Scenario.sampleHash Scenario.sampleParse Scenario.envNoPub Scenario.st0
        (some Scenario.fileGoodA)).1 =
      UploadOutcome.stored "batch-c" (processedPath "batch-c") 1 Scenario.csvGoodText ∧
    (processedPath "batch-c", Scenario.csvGoodText) ∈
      (upload Scenario.sampleHash Scenario.sampleParse Scenario.envNoPub Scenario.st0
        (some Scenario.fileGoodA)).2.1.stored ∧
    (upload Scenario.sampleHash Scenario.sampleParse Scenario.envNoPub Scenario.st0
        (some Scenario.fileGoodA)).2.1.published = Scenario.st0.published :=
  publish_failure_keeps_batch Scenario.sampleHash Scenario.sampleParse Scenario.envNoPub
    Scenario.st0 Scenario.fileGoodA [Scenario.goodRecord] rfl rfl rfl (by decide) (by decide)
    (by decide)

theorem validate_missing (data : List Record) (hne : data ≠ [])
    (hmiss : missingHeaderFields data ≠ []) :
    validateCSVSchema data =
      { valid := false,
        error := some ("Missing required fields: " ++
          String.intercalate ", " (missingHeaderFields data)) } := by
  unfold validateCSVSchema
  have h1 : ¬(data.isEmpty = true) := by
    cases data with
    | nil => exact absurd rfl hne
    | cons a l => simp
  rw [if_neg h1]
  dsimp only
  unfold missingHeaderFields at hmiss ⊢
  have h2 : (requiredFields.filter
      (fun f => !(List.map Prod.fst (data.headD [])).contains f)).isEmpty = false := by
    cases h : (requiredFields.filter
        (fun f => !(List.map Prod.fst (data.headD [])).contains f)) with
    | nil => exact absurd h hmiss
    | cons a l => rfl
  rw [h2]
  rfl

/-- Claim C5: the schema validator is deterministic — equal record sets get
equal reports — and its error reporting follows the fixed rule order:
empty record set, missing header fields (all listed), then per record in
file order with the report citing the first violating row (the least index
whose record violates); within a record the rules apply in the fixed
order blank required field (first such field in declaration order),
non-positive or non-numeric amount, then payment method outside the
enumerated set. -/
theorem validator_deterministic_first_violation (data : List Record) :
    (∀ d2, data = d2 → validateCSVSchema data = validateCSVSchema d2) ∧
    validateCSVSchema [] = { valid := false, error := some "CSV file is empty" } ∧
    (data ≠ [] → missingHeaderFields data ≠ [] →
      validateCSVSchema data =
        { valid := false,
          error := some ("Missing required fields: " ++
            String.intercalate ", " (missingHeaderFields data)) }) ∧
    (∀ i row, data.get? i = some row → rowBad row = true →
      (∀ j rj, j < i → data.get? j = some rj → rowBad rj = false) →
      missingHeaderFields data = [] →
      validateCSVSchema data = { valid := false, error := checkRow i row }) ∧
    (∀ i row f, requiredFields.find? (fun g => isBlank (List.lookup g row)) = some f →
      checkRow i row = some ("Row " ++ toString (i + 1) ++ ": " ++ f ++ " is required")) ∧
    (∀ i row, requiredFields.find? (fun g => isBlank (List.lookup g row)) = none →
      jsNotPositive (jsParseFloatOpt (List.lookup "amount" row)) = true →
      checkRow i row =
        some ("Row " ++ toString (i + 1) ++ ": amount must be a positive number")) ∧
    (∀ i row, requiredFields.find? (fun g => isBlank (List.lookup g row)) = none →
      jsNotPositive (jsParseFloatOpt (List.lookup "amount" row)) = false →
      paymentMethodOk (List.lookup "paymentMethod" row) = false →
      checkRow i row =
        some ("Row " ++ toString (i + 1) ++ ": paymentMethod must be one of " ++
          String.intercalate ", " validPaymentMethods)) := by
  refine ⟨?_, rfl, validate_missing data, ?_, ?_, ?_, ?_⟩
  · intro d2 h; rw [h]
  · exact fun i row hget hbad hprev hhead =>
      validate_first_violation data i row hget hbad hprev hhead
  · intro i row f hf
    simp [checkRow, hf]
  · intro i row hf ha
    simp [checkRow, hf, ha]
  · intro i row hf ha hp
    simp [checkRow, hf, ha, hp]

/-- Witness for C5 at a concrete record set: the first record is clean and
the second has an out-of-set payment method, so the report is invalid with
exactly the row-2 message produced by the per-record rule chain. -/
theorem validator_deterministic_first_violation_witness :
    validateCSVSchema [Scenario.goodRecord, Scenario.badPaymentRecord] =
      { valid := false, error := checkRow 1 Scenario.badPaymentRecord } :=
  (validator_deterministic_first_violation
      [Scenario.goodRecord, Scenario.badPaymentRecord]).2.2.2.1
    1 Scenario.badPaymentRecord (by decide) (by decide)
    (by
      intro j rj hj hg
      have hj0 : j = 0 := by omega
      subst hj0
      simp at hg
      subst hg
      decide)
    (by decide)

/-- Claim C8: in every record set the validator accepts, every record's
amount parses as a number and is strictly positive; conversely any record
whose amount fails that test makes the report invalid, and when that
record is the first violation in file order the report cites exactly that
row with the amount message. -/
theorem amount_rule (data : List Record) :
    ((validateCSVSchema data).valid = true →
      ∀ row ∈ data, jsNotPositive (jsParseFloatOpt (List.lookup "amount" row)) = false) ∧
    (∀ row ∈ data, jsNotPositive (jsParseFloatOpt (List.lookup "amount" row)) = true →
      (validateCSVSchema data).valid = false) ∧
    (∀ i row, data.get? i = some row →
      (∀ j rj, j < i → data.get? j = some rj → rowBad rj = false) →
      requiredFields.find? (fun g => isBlank (List.lookup g row)) = none →
      jsNotPositive (jsParseFloatOpt (List.lookup "amount" row)) = true →
      missingHeaderFields data = [] →
      (validateCSVSchema data).error =
        some ("Row " ++ toString (i + 1) ++ ": amount must be a positive number")) := by
  have main1 : (validateCSVSchema data).valid = true →
      ∀ row ∈ data, jsNotPositive (jsParseFloatOpt (List.lookup "amount" row)) = false := by
    intro hv row hmem
    have hrows := valid_checkRows data hv
    have hbadf := checkRows_none data 0 hrows row hmem
    exact checkRow_amount_ok 0 row (checkRow_eq_none_of_not_bad 0 row hbadf)
  refine ⟨main1, ?_, ?_⟩
  · intro row hmem hbad
    cases hval : (validateCSVSchema data).valid with
    | false => rfl
    | true =>
      have hgood := main1 hval row hmem
      rw [hgood] at hbad
      exact absurd hbad (by simp)
  · intro i row hget hprev hfind hbad hhead
    have hbadrow : rowBad row = true := rowBad_of_bad_amount row hbad
    have hv := validate_first_violation data i row hget hbadrow hprev hhead
    rw [hv]
    simp [checkRow, hfind, hbad]

/-- Witness for C8 at a concrete record set: the second record's amount is
`-5`, the first record is clean, and the report cites row 2 with the
amount message. -/
theorem amount_rule_witness :
    (validateCSVSchema [Scenario.goodRecord, Scenario.badAmountRecord]).error =
      some ("Row " ++ toString (1 + 1) ++ ": amount must be a positive number") :=
  (amount_rule [Scenario.goodRecord, Scenario.badAmountRecord]).2.2 1 Scenario.badAmountRecord
    (by decide)
    (by
      intro j rj hj hg
      have hj0 : j = 0 := by omega
      subst hj0
      simp at hg
      subst hg
      decide)
    (by decide) (by decide) (by decide)

/-- Claim C9: the batch status lookup interpolates the caller-supplied
batchId into the storage path with no containment check, so the traversal
input `../secret` resolves to `/app/data/secret.csv`, outside the
processed directory, and the handler reports that file's existence and
size — while the evidence read path rejects the same traversal input as an
invalid path. -/
theorem batch_status_traversal :
    batchStatus [("/app/data/secret.csv", 42)] "../secret" =
      StatusResult.ok "/app/data/processed/../secret.csv" 42 ∧
    PathModel.resolveAbs (batchStatusPath "../secret") = "/app/data/secret.csv" ∧
    PathModel.insideRoot "/app/data/processed"
      (PathModel.resolveAbs (batchStatusPath "../secret")) = false ∧
    Evidence.evidenceGet [("/app/data/secret.csv", "bytes")] "../secret" =
      Evidence.GetResult.invalidPath := by
  refine ⟨by decide, by decide, by decide, by decide⟩

end Ingest

